import Mathlib

/-!
Verification of the cortex.t validator (`src/neurons/validator.py`) against its
natural-language specification.

The source is a single asyncio Python program.  We shallowly embed the pure
data flow of each function under scrutiny:

* torch score tensors become `List ℚ` (exact rationals standing for the
  real-arithmetic semantics the spec states);
* the global mutable queue state (`state[category][item_type]`) becomes an
  explicit `CatState` record threaded through the queue operations;
* fallible calls (OpenAI oracle, dendrite transport, ValueError) become
  `Option`/`Except` values;
* the cooperative-concurrency behaviour of `update_counters_and_get_new_list`
  under the global `asyncio.Lock` becomes a small explicit interleaving
  machine (threads step atomically between `await` points, exactly as the
  asyncio event loop schedules them).
-/

/-! ## Elementwise vector arithmetic (torch tensors over exact rationals) -/

def addVec (a b : List ℚ) : List ℚ := List.zipWith (· + ·) a b

def scaleVec (c : ℚ) (v : List ℚ) : List ℚ := v.map (fun x => c * x)

def zeroVec (n : Nat) : List ℚ := List.replicate n 0

/-! ## `set_weights` (validator.py lines 243-253): the moving-average update

The source mutates the global `moving_average_scores`:
`if moving_average_scores is None: moving_average_scores = scores.clone()`
followed unconditionally by
`moving_average_scores = alpha * scores + (1 - alpha) * moving_average_scores`
with `alpha = .3`.  We model the value of `moving_average_scores` after the
call (the committed vector handed to `subtensor.set_weights`). -/

def set_weights (moving_average_scores : Option (List ℚ)) (scores : List ℚ) : List ℚ :=
  let prev : List ℚ :=
    match moving_average_scores with
    | none => scores
    | some m => m
  List.zipWith (fun s m => (3/10 : ℚ) * s + (1 - 3/10) * m) scores prev

/-- Claim C1: the weight accumulator obeys the EMA law: on the first call
(`moving_average_scores is None`) the committed vector equals the input score
vector exactly (the clone initialisation makes the update compute
`0.3*v + 0.7*v = v` elementwise); on every subsequent call with input `v` the
committed vector equals `0.3*v + 0.7*(previous committed vector)` elementwise.
The third conjunct checks the three-round example from the specification. -/
theorem C1_ema_law :
    (∀ v : List ℚ, set_weights none v = v) ∧
    (∀ (v m : List ℚ),
      set_weights (some m) v =
        List.zipWith (fun s p => (3/10 : ℚ) * s + (7/10 : ℚ) * p) v m) ∧
    (set_weights none [1, 0, 1/2] = [1, 0, 1/2] ∧
      set_weights (some [1, 0, 1/2]) [0, 1, 1/2] = [7/10, 3/10, 1/2] ∧
      set_weights (some [7/10, 3/10, 1/2]) [0, 1, 1/2] = [49/100, 51/100, 1/2]) := by
  refine ⟨?_, ?_, ?_⟩
  · intro v
    induction v with
    | nil => rfl
    | cons x xs ih =>
      simp only [set_weights, List.zipWith] at ih ⊢
      rw [ih]
      ring_nf
  · intro v m
    simp only [set_weights]
    norm_num
  · refine ⟨?_, ?_, ?_⟩ <;> simp [set_weights] <;> norm_num

/-! ## TaskSupply: the rotating per-category queues

`state[category]` holds two slots, `"themes"` and `"questions"`, each either a
Python list of strings or `None`.  `update_counters_and_get_new_list`
(validator.py lines 174-213) runs under the global lock: it reads the slot for
the requested kind, refills it from `get_list` when falsy (`None` or `[]`),
pops the LAST element (Python `list.pop()`), and stores `None` back when the
pop drained the list.  For `"questions"` with no theme supplied it first pops
a theme via `get_current_theme`, refilling the theme queue if that is falsy,
and raises `ValueError` when no theme results.  The oracle refills are
modelled by the parameters `themesRefill` (result of
`get_list(category_themes)`) and `questionsRefill` (result of
`get_list(category_questions, theme)` for the resolved theme). -/

inductive ItemKind
  | themes
  | questions
deriving DecidableEq, Repr

structure CatState where
  themes : Option (List String)
  questions : Option (List String)
deriving DecidableEq, Repr

/-- Python truthiness test `if not items:` on an optional list. -/
def falsy : Option (List String) → Bool
  | none => true
  | some [] => true
  | some (_ :: _) => false

/-- Python `list.pop()`: returns the last element and the remaining list. -/
def popLast (l : List String) : Option String × List String :=
  (l.getLast?, l.dropLast)

instance instDecEqExcept {e a : Type} [DecidableEq e] [DecidableEq a] :
    DecidableEq (Except e a) := fun x y =>
  match x, y with
  | .ok u, .ok v =>
    if h : u = v then .isTrue (by rw [h]) else .isFalse (by simp [h])
  | .error u, .error v =>
    if h : u = v then .isTrue (by rw [h]) else .isFalse (by simp [h])
  | .ok _, .error _ => .isFalse (by simp)
  | .error _, .ok _ => .isFalse (by simp)

/-- Result of one `update_counters_and_get_new_list` call: the returned item
(or the propagated `ValueError` message), the mutated category state, and the
number of `get_list` refills performed for the requested (category, kind) key
in this call (`0` or `1`). -/
structure TakeOut where
  item : Except String (Option String)
  st : CatState
  keyRefills : Nat
deriving DecidableEq, Repr

def update_counters_and_get_new_list (st : CatState) (kind : ItemKind)
    (theme : Option String) (themesRefill : List String)
    (questionsRefill : String → List String) : TakeOut :=
  match kind with
  | .themes =>
    -- item_type == "themes": get_items is get_list(f"{category}_themes")
    let refill := falsy st.themes
    let items := if refill then themesRefill else st.themes.getD []
    let st1 := if refill then { st with themes := some themesRefill } else st
    let (item, rest) := popLast items
    -- `if not items: state[category][item_type] = None`
    let st2 := { st1 with themes := if rest.isEmpty then none else some rest }
    ⟨.ok item, st2, if refill then 1 else 0⟩
  | .questions =>
    if falsy st.questions then
      -- refill path: get_items(category, "questions", theme)
      let resolved : Except String String × CatState :=
        match theme with
        | some t => (.ok t, st)
        | none =>
          -- get_current_theme: refill the theme queue if falsy, then
          -- `return themes.pop() if themes else None`
          let trefill := falsy st.themes
          let ts := if trefill then themesRefill else st.themes.getD []
          let stA := if trefill then { st with themes := some themesRefill } else st
          match popLast ts with
          | (none, _) =>
            -- no theme: ValueError("No theme available for questions");
            -- note the theme queue is left exactly as stored (possibly `[]`)
            (.error "No theme available for questions", stA)
          | (some t, tRest) =>
            -- the in-place pop leaves the stored list shortened (never `None`)
            (.ok t, { stA with themes := some tRest })
      match resolved with
      | (.error e, st') => ⟨.error e, st', 0⟩
      | (.ok t, st') =>
        let items := questionsRefill t
        let stq := { st' with questions := some items }
        let (item, rest) := popLast items
        let st2 := { stq with questions := if rest.isEmpty then none else some rest }
        ⟨.ok item, st2, 1⟩
    else
      let items := st.questions.getD []
      let (item, rest) := popLast items
      let st2 := { st with questions := if rest.isEmpty then none else some rest }
      ⟨.ok item, st2, 0⟩

/-- The queue slot for a kind. -/
def getKindQ (st : CatState) : ItemKind → Option (List String)
  | .themes => st.themes
  | .questions => st.questions

/-- Iterate `update_counters_and_get_new_list` `n` times, collecting the
items, the final state, and the total number of key refills. -/
def takeRun (kind : ItemKind) (theme : Option String) (themesRefill : List String)
    (questionsRefill : String → List String) :
    CatState → Nat → List (Except String (Option String)) × CatState × Nat
  | st, 0 => ([], st, 0)
  | st, n + 1 =>
    let o := update_counters_and_get_new_list st kind theme themesRefill questionsRefill
    let (items, st', r) := takeRun kind theme themesRefill questionsRefill o.st n
    (o.item :: items, st', o.keyRefills + r)

/-- `get_question` (validator.py lines 215-220): rejects any category other
than `"text"` and `"images"` with a `ValueError` before touching the queue
state, otherwise takes one question. -/
def get_question (category : String) (st : CatState) (themesRefill : List String)
    (questionsRefill : String → List String) :
    Except String (Option String) × CatState :=
  if category = "text" || category = "images" then
    let o := update_counters_and_get_new_list st .questions none themesRefill questionsRefill
    (o.item, o.st)
  else
    (.error "Invalid category", st)

/-- Overwrite the queue slot for a kind. -/
def setKindQ (st : CatState) (kind : ItemKind) (v : Option (List String)) : CatState :=
  match kind with
  | .themes => { st with themes := v }
  | .questions => { st with questions := v }

lemma getKindQ_setKindQ (st : CatState) (kind : ItemKind) (v : Option (List String)) :
    getKindQ (setKindQ st kind v) kind = v := by
  cases kind <;> simp [getKindQ, setKindQ]

lemma setKindQ_setKindQ (st : CatState) (kind : ItemKind) (v w : Option (List String)) :
    setKindQ (setKindQ st kind v) kind w = setKindQ st kind w := by
  cases kind <;> simp [setKindQ]

/-- A take on a non-empty queue pops the last element without refilling. -/
lemma take_nonempty (st : CatState) (kind : ItemKind) (theme : Option String)
    (tr : List String) (qr : String → List String) (l : List String)
    (hq : getKindQ st kind = some l) (hne : l ≠ []) :
    update_counters_and_get_new_list st kind theme tr qr =
      ⟨.ok l.getLast?,
       setKindQ st kind (if l.dropLast.isEmpty then none else some l.dropLast), 0⟩ := by
  obtain ⟨x, xs, rfl⟩ := List.exists_cons_of_ne_nil hne
  cases kind with
  | themes =>
    simp only [getKindQ] at hq
    simp [update_counters_and_get_new_list, hq, falsy, popLast, setKindQ]
  | questions =>
    simp only [getKindQ] at hq
    simp [update_counters_and_get_new_list, hq, falsy, popLast, setKindQ]

/-- Draining a non-empty queue of length `k` by `k` takes yields the elements
in reverse insertion order, performs no refill, and leaves the slot `None`. -/
lemma takeRun_drain (kind : ItemKind) (theme : Option String) (tr : List String)
    (qr : String → List String) (l : List String) :
    l ≠ [] → ∀ st : CatState, getKindQ st kind = some l →
    takeRun kind theme tr qr st l.length =
      (l.reverse.map (fun s => Except.ok (some s)), setKindQ st kind none, 0) := by
  induction l using List.reverseRecOn with
  | nil => intro h; exact absurd rfl h
  | append_singleton d x ih =>
    intro _ st hq
    have hlen : (d ++ [x]).length = d.length + 1 := by simp
    rw [hlen]
    simp only [takeRun]
    rw [take_nonempty st kind theme tr qr (d ++ [x]) hq (by simp)]
    have hdrop : (d ++ [x]).dropLast = d := by simp
    have hlast : (d ++ [x]).getLast? = some x := List.getLast?_concat d
    rw [hdrop, hlast]
    cases d with
    | nil =>
      simp [takeRun]
    | cons a d' =>
      have hne' : a :: d' ≠ [] := by simp
      have := ih hne' (setKindQ st kind (some (a :: d')))
        (getKindQ_setKindQ st kind (some (a :: d')))
      simp only [List.isEmpty_cons]
      simp only [if_neg (by simp : ¬(false = true))]
      rw [this, setKindQ_setKindQ]
      simp

lemma falsy_false (o : Option (List String)) (h : falsy o = false) :
    ∃ x xs, o = some (x :: xs) := by
  cases o with
  | none => simp [falsy] at h
  | some l =>
    cases l with
    | nil => simp [falsy] at h
    | cons x xs => exact ⟨x, xs, rfl⟩

lemma falsy_true (o : Option (List String)) (h : falsy o = true) :
    o = none ∨ o = some [] := by
  cases o with
  | none => exact Or.inl rfl
  | some l =>
    cases l with
    | nil => exact Or.inr rfl
    | cons x xs => simp [falsy] at h

/-- Claim C3: for every non-empty (category, kind) queue, a take pops and
returns the last element (LIFO); a queue of size `k` is drained by `k`
consecutive takes returning its elements in reverse insertion order with no
refill of that key, and the `(k+1)`-th call performs exactly one refill of the
key from the oracle.  For a questions take with no theme supplied, the final
hypothesis guarantees that the theme resolution inside the `(k+1)`-th call can
produce a theme (the theme queue or its refill is non-empty). -/
theorem C3_lifo_queue_rotation (kind : ItemKind) (theme : Option String)
    (tr : List String) (qr : String → List String) (st : CatState) (l : List String)
    (hq : getKindQ st kind = some l) (hne : l ≠ [])
    (hth : kind = ItemKind.questions → theme = none →
      (falsy st.themes = false ∨ tr ≠ [])) :
    (update_counters_and_get_new_list st kind theme tr qr).item = .ok l.getLast? ∧
    takeRun kind theme tr qr st l.length =
      (l.reverse.map (fun s => Except.ok (some s)), setKindQ st kind none, 0) ∧
    (update_counters_and_get_new_list (setKindQ st kind none) kind theme tr qr).keyRefills
      = 1 := by
  refine ⟨?_, takeRun_drain kind theme tr qr l hne st hq, ?_⟩
  · rw [take_nonempty st kind theme tr qr l hq hne]
  · cases kind with
    | themes =>
      simp [update_counters_and_get_new_list, setKindQ, falsy, popLast]
    | questions =>
      have hqq : (setKindQ st .questions none).questions = none := by simp [setKindQ]
      have hqt : (setKindQ st .questions none).themes = st.themes := by simp [setKindQ]
      cases theme with
      | some t =>
        simp [update_counters_and_get_new_list, hqq, hqt, falsy, popLast]
      | none =>
        rcases hth rfl rfl with hf | htr
        · obtain ⟨c, cs, hcs⟩ := falsy_false _ hf
          simp [update_counters_and_get_new_list, hqq, hqt, hcs, falsy, popLast,
            List.getLast?_cons]
        · cases hft : falsy st.themes with
          | false =>
            obtain ⟨c, cs, hcs⟩ := falsy_false _ hft
            simp [update_counters_and_get_new_list, hqq, hqt, hcs, falsy, popLast,
              List.getLast?_cons]
          | true =>
            obtain ⟨c, cs, hcs⟩ := List.exists_cons_of_ne_nil htr
            subst hcs
            rcases falsy_true _ hft with hn | hn <;>
              simp [update_counters_and_get_new_list, hqq, hqt, hn, falsy, popLast,
                List.getLast?_cons]

/-- Witness for C3 at the spec's own example: queue `["q1","q2"]` returns
`"q2"` then `"q1"`, and the third call triggers one refill. -/
theorem C3_lifo_queue_rotation_witness :
    (update_counters_and_get_new_list ⟨some ["q1", "q2"], none⟩ .themes none ["x"]
        (fun _ => [])).item = .ok (some "q2") ∧
    takeRun .themes none ["x"] (fun _ => []) ⟨some ["q1", "q2"], none⟩ 2 =
      ([.ok (some "q2"), .ok (some "q1")], ⟨none, none⟩, 0) ∧
    (update_counters_and_get_new_list ⟨none, none⟩ .themes none ["x"]
        (fun _ => [])).keyRefills = 1 := by
  obtain ⟨h1, h2, h3⟩ := C3_lifo_queue_rotation .themes none ["x"] (fun _ => [])
    ⟨some ["q1", "q2"], none⟩ ["q1", "q2"] rfl (by decide)
    (fun h => absurd h (by decide))
  refine ⟨?_, ?_, ?_⟩
  · simpa using h1
  · simpa [setKindQ] using h2
  · simpa [setKindQ] using h3

/-- Claim C9: `get_question` raises `ValueError` for every category other than
`"text"` and `"images"`, without touching the queue state.  In particular
`"embeddings"` — the only category the round loop actually dispatches — has no
question supply (see the witness). -/
theorem C9_invalid_category (category : String) (st : CatState)
    (tr : List String) (qr : String → List String)
    (h1 : category ≠ "text") (h2 : category ≠ "images") :
    get_question category st tr qr = (.error "Invalid category", st) := by
  simp [get_question, h1, h2]

theorem C9_invalid_category_witness :
    get_question "embeddings" ⟨some ["t"], some ["q"]⟩ [] (fun _ => []) =
      (.error "Invalid category", ⟨some ["t"], some ["q"]⟩) :=
  C9_invalid_category "embeddings" ⟨some ["t"], some ["q"]⟩ [] (fun _ => [])
    (by decide) (by decide)

/-- Whether a take returned an item (as opposed to raising `ValueError`). -/
def takeOk : Except String (Option String) → Bool
  | .ok _ => true
  | .error _ => false

lemma ite_rest_ne_some_nil (rest : List String) :
    (if rest.isEmpty then none else some rest) ≠ some ([] : List String) := by
  cases rest <;> simp

/-! Computation lemmas, one per control path of a questions take. -/

lemma take_q_nonempty (st : CatState) (theme : Option String) (tr : List String)
    (qr : String → List String) (hfq : falsy st.questions = false) :
    update_counters_and_get_new_list st .questions theme tr qr =
      ⟨.ok (st.questions.getD []).getLast?,
       { st with questions :=
          if (st.questions.getD []).dropLast.isEmpty then none
          else some (st.questions.getD []).dropLast }, 0⟩ := by
  simp [update_counters_and_get_new_list, hfq, popLast]

lemma take_q_refill_themeGiven (st : CatState) (t : String) (tr : List String)
    (qr : String → List String) (hfq : falsy st.questions = true) :
    update_counters_and_get_new_list st .questions (some t) tr qr =
      ⟨.ok (qr t).getLast?,
       { st with questions :=
          if (qr t).dropLast.isEmpty then none else some ((qr t).dropLast) }, 1⟩ := by
  simp [update_counters_and_get_new_list, hfq, popLast]

lemma falsy_cons (x : String) (xs : List String) : falsy (some (x :: xs)) = false := rfl

lemma take_q_refill_themePopped (st : CatState) (tr : List String)
    (qr : String → List String) (c : String) (cs : List String)
    (hfq : falsy st.questions = true) (hth : st.themes = some (c :: cs)) :
    update_counters_and_get_new_list st .questions none tr qr =
      ⟨.ok (qr (cs.getLastD c)).getLast?,
       ⟨some ((c :: cs).dropLast),
        if (qr (cs.getLastD c)).dropLast.isEmpty then none
        else some ((qr (cs.getLastD c)).dropLast)⟩, 1⟩ := by
  simp [update_counters_and_get_new_list, hfq, hth, falsy_cons, popLast,
    List.getLast?_cons]

lemma take_q_refill_themeRefilled (st : CatState) (qr : String → List String)
    (d : String) (ds : List String)
    (hfq : falsy st.questions = true) (hft : falsy st.themes = true) :
    update_counters_and_get_new_list st .questions none (d :: ds) qr =
      ⟨.ok (qr (ds.getLastD d)).getLast?,
       ⟨some ((d :: ds).dropLast),
        if (qr (ds.getLastD d)).dropLast.isEmpty then none
        else some ((qr (ds.getLastD d)).dropLast)⟩, 1⟩ := by
  simp [update_counters_and_get_new_list, hfq, hft, popLast, List.getLast?_cons]

lemma take_q_noTheme (st : CatState) (qr : String → List String)
    (hfq : falsy st.questions = true) (hft : falsy st.themes = true) :
    update_counters_and_get_new_list st .questions none [] qr =
      ⟨.error "No theme available for questions", ⟨some [], st.questions⟩, 0⟩ := by
  simp [update_counters_and_get_new_list, hfq, hft, popLast]

/-- Claim C10 counterexample: a questions take on a fully empty category whose
theme refill yields no items raises `ValueError` instead of returning a `None`
item, so `take` is not total. -/
theorem C10_counterexample :
    (update_counters_and_get_new_list ⟨none, none⟩ .questions none []
        (fun _ => [])).item = .error "No theme available for questions" ∧
    (update_counters_and_get_new_list ⟨none, none⟩ .questions none []
        (fun _ => [])).item ≠ .ok none := by
  constructor <;> decide

/-- Claim C10 as amended: (1) whenever a take returns an item, the slot of the
taken (category, kind) key is never left as an empty list (a drained queue is
stored as the `None` sentinel, and the truthiness check treats `None` and `[]`
alike, so the next take refills); (2) a themes take never raises; (3) a
questions take whose own refill yields no items returns a `None` item rather
than raising; but (4) a questions take that pops the last stored theme leaves
the *themes* slot stored as an empty list (an empty list, not the `None`
sentinel, though it is still falsy), and — per the counterexample — a
questions take with no theme supplied raises `ValueError` when the theme queue
and its refill are both empty. -/
theorem C10_take_invariants (st : CatState) (kind : ItemKind)
    (theme : Option String) (tr : List String) (qr : String → List String) :
    (takeOk (update_counters_and_get_new_list st kind theme tr qr).item = true →
      getKindQ (update_counters_and_get_new_list st kind theme tr qr).st kind
        ≠ some []) ∧
    (takeOk (update_counters_and_get_new_list st .themes theme tr qr).item = true) ∧
    (∀ t, falsy st.questions = true → qr t = [] →
      (update_counters_and_get_new_list st .questions (some t) tr qr).item
        = .ok none) ∧
    ((update_counters_and_get_new_list ⟨some ["t1"], none⟩ ItemKind.questions none tr
        (fun _ => ["q1", "q2"])).st.themes = some []) := by
  refine ⟨?_, ?_, ?_, ?_⟩
  · intro hok
    cases kind with
    | themes =>
      simp only [update_counters_and_get_new_list, getKindQ, popLast]
      exact ite_rest_ne_some_nil _
    | questions =>
      cases hfq : falsy st.questions with
      | false =>
        rw [take_q_nonempty st theme tr qr hfq]
        exact ite_rest_ne_some_nil _
      | true =>
        cases theme with
        | some t =>
          rw [take_q_refill_themeGiven st t tr qr hfq]
          exact ite_rest_ne_some_nil _
        | none =>
          cases hft : falsy st.themes with
          | false =>
            obtain ⟨c, cs, hth⟩ := falsy_false _ hft
            rw [take_q_refill_themePopped st tr qr c cs hfq hth]
            exact ite_rest_ne_some_nil _
          | true =>
            cases tr with
            | nil =>
              rw [take_q_noTheme st qr hfq hft] at hok
              simp [takeOk] at hok
            | cons d ds =>
              rw [take_q_refill_themeRefilled st qr d ds hfq hft]
              exact ite_rest_ne_some_nil _
  · simp [update_counters_and_get_new_list, takeOk, popLast]
  · intro t hfq hqr
    simp [update_counters_and_get_new_list, hfq, hqr, popLast]
  · rfl

/-- Witness for C10: concrete instances of the amended guarantees. -/
theorem C10_take_invariants_witness :
    getKindQ (update_counters_and_get_new_list ⟨some ["a"], none⟩ .themes none []
        (fun _ => [])).st ItemKind.themes ≠ some [] ∧
    (update_counters_and_get_new_list ⟨none, some []⟩ .questions (some "t") []
        (fun _ => [])).item = .ok none := by
  constructor
  · exact (C10_take_invariants ⟨some ["a"], none⟩ .themes none [] (fun _ => [])).1
      (by decide)
  · exact (C10_take_invariants ⟨none, some []⟩ .questions none [] (fun _ => [])).2.2.1
      "t" (by decide) rfl

/-! ## `get_list` (validator.py lines 125-172): oracle-backed list fetching

`call_openai` already catches its own exceptions and returns `None` on
failure, so one oracle attempt is modelled as an `Option String` taken from
the sequence `answers` (attempt `i` uses `answers[i]`, or `None` when the
sequence is exhausted).  `template.utils.extract_python_list` lives outside
`src/`; it is kept abstract as the parameter `extract`.  Each attempt
replaces newlines by spaces (`answer.replace("\n", " ") if answer else ""`),
extracts, and accepts only a truthy (non-empty) extracted list; any exception
in the loop body is caught and counts as a failed attempt.  After
`max_retries = 3` failed attempts the built-in default list for the key is
returned.  The second component counts `call_openai` invocations. -/

def replaceNewlines (s : String) : String :=
  s.map (fun ch => if ch = '\n' then ' ' else ch)

def get_list_go (extract : String → Option (List String)) (default : List String) :
    Nat → List (Option String) → List String × Nat
  | 0, _ => (default, 0)
  | r + 1, answers =>
    let answer : Option String := (answers.head?).getD none
    let processed : String :=
      match answer with
      | some a => replaceNewlines a
      | none => ""
    match extract processed with
    | some (x :: xs) => (x :: xs, 1)
    | _ =>
      let (res, c) := get_list_go extract default r answers.tail
      (res, c + 1)

def get_list (answers : List (Option String)) (extract : String → Option (List String))
    (default : List String) : List String × Nat :=
  get_list_go extract default 3 answers

/-- The processed form of the `i`-th oracle answer. -/
def processedAnswer (answers : List (Option String)) (i : Nat) : String :=
  match (answers.get? i).getD none with
  | some a => replaceNewlines a
  | none => ""

/-- Python truthiness of an optional extraction result. -/
def truthyList : Option (List String) → Bool
  | some (_ :: _) => true
  | _ => false

/-- Whether attempt `i` fails validation (no truthy extracted list). -/
def attemptFails (extract : String → Option (List String))
    (answers : List (Option String)) (i : Nat) : Bool :=
  !truthyList (extract (processedAnswer answers i))

lemma get_list_go_spec (extract : String → Option (List String))
    (default : List String) (r : Nat) :
    ∀ answers : List (Option String),
    (get_list_go extract default r answers).2 ≤ r ∧
    ((∀ i < r, attemptFails extract answers i = true) →
      (get_list_go extract default r answers).1 = default) ∧
    ((get_list_go extract default r answers).1 = default ∨
      ∃ i < r, ∃ x xs, extract (processedAnswer answers i) = some (x :: xs) ∧
        (get_list_go extract default r answers).1 = x :: xs) := by
  induction r with
  | zero =>
    intro answers
    exact ⟨Nat.le_refl 0, fun _ => rfl, Or.inl rfl⟩
  | succ r ih =>
    intro answers
    have hp : processedAnswer answers 0 =
        (match (answers.head?).getD none with
         | some a => replaceNewlines a
         | none => "") := by
      cases answers <;> rfl
    have hshift : ∀ i, processedAnswer answers.tail i = processedAnswer answers (i + 1) := by
      intro i
      cases answers <;> rfl
    cases hx : extract (match (answers.head?).getD none with
                        | some a => replaceNewlines a
                        | none => "") with
    | some l =>
      cases l with
      | nil =>
        -- empty extracted list is falsy in Python: treated as a failed attempt
        obtain ⟨ih1, ih2, ih3⟩ := ih answers.tail
        refine ⟨?_, ?_, ?_⟩
        · simp only [get_list_go, hx]
          omega
        · intro hall
          simp only [get_list_go, hx]
          exact ih2 (fun i hi => by
            have h := hall (i + 1) (by omega)
            simp only [attemptFails] at h ⊢
            rw [hshift]
            exact h)
        · simp only [get_list_go, hx]
          rcases ih3 with h | ⟨i, hi, x, xs, hex, hres⟩
          · exact Or.inl h
          · exact Or.inr ⟨i + 1, by omega, x, xs, by rw [← hshift]; exact hex, hres⟩
      | cons x xs =>
        refine ⟨?_, ?_, ?_⟩
        · simp only [get_list_go, hx]
          omega
        · intro hall
          have := hall 0 (by omega)
          simp only [attemptFails] at this
          rw [hp, hx] at this
          simp [truthyList] at this
        · simp only [get_list_go, hx]
          exact Or.inr ⟨0, by omega, x, xs, by rw [processedAnswer]; cases answers <;>
            simp_all, rfl⟩
    | none =>
      obtain ⟨ih1, ih2, ih3⟩ := ih answers.tail
      refine ⟨?_, ?_, ?_⟩
      · simp only [get_list_go, hx]
        omega
      · intro hall
        simp only [get_list_go, hx]
        exact ih2 (fun i hi => by
          have h := hall (i + 1) (by omega)
          simp only [attemptFails] at h ⊢
          rw [hshift]
          exact h)
      · simp only [get_list_go, hx]
        rcases ih3 with h | ⟨i, hi, x, xs, hex, hres⟩
        · exact Or.inl h
        · exact Or.inr ⟨i + 1, by omega, x, xs, by rw [← hshift]; exact hex, hres⟩

/-- Claim C7: for every oracle behaviour, `get_list` calls the oracle at most
3 times; if every one of the (at most 3) attempts fails to yield a truthy
machine-extractable Python list, it returns the built-in default list for the
key; and every returned list is either that default or a non-empty extracted
list from one of the attempts.  The function is total in this model — an
oracle failure (a `None` answer) or a failed extraction is consumed as a
failed attempt, never propagated. -/
theorem C7_get_list_retries (answers : List (Option String))
    (extract : String → Option (List String)) (default : List String) :
    (get_list answers extract default).2 ≤ 3 ∧
    ((∀ i < 3, attemptFails extract answers i = true) →
      (get_list answers extract default).1 = default) ∧
    ((get_list answers extract default).1 = default ∨
      ∃ i < 3, ∃ x xs, extract (processedAnswer answers i) = some (x :: xs) ∧
        (get_list answers extract default).1 = x :: xs) :=
  get_list_go_spec extract default 3 answers

/-- Witness for C7: a failing oracle (malformed, then `None`, then empty
extraction) falls back to the default list after exactly 3 attempts. -/
theorem C7_get_list_retries_witness :
    (get_list [some "junk", none, some "[]"] (fun _ => none) ["d1", "d2"]).1
        = ["d1", "d2"] ∧
    (get_list [some "junk", none, some "[]"] (fun _ => none) ["d1", "d2"]).2 ≤ 3 := by
  obtain ⟨h1, h2, _⟩ :=
    C7_get_list_retries [some "junk", none, some "[]"] (fun _ => none) ["d1", "d2"]
  exact ⟨h2 (fun i _ => by cases i <;> rfl), h1⟩

/-! ## `BaseValidator.query_miner` (validator.py lines 265-289) and the
concurrent dispatch batch (`start_query`, lines 320-333 / 406-419 / 480-499)

The entire `try` body of `query_miner` — the logging f-string (which in the
source as written references an undefined global `timeout` and therefore
raises `NameError`), the dendrite transport call, streamed-chunk reassembly,
and deserialization — is modelled by its outcome `body : Except String R`.
The `except Exception` handler converts any failure into `(uid, None)`; the
function is total and always returns a pair carrying the queried uid.
`start_query` builds one task per available uid and gathers them, which for
pure outcomes is a map; `asyncio.gather` preserves order and length. -/

def query_miner {R : Type} (uid : Nat) (body : Except String R) : Nat × Option R :=
  match body with
  | .ok responses => (uid, some responses)
  | .error _ => (uid, none)

def start_query {R : Type} (available_uids : List Nat)
    (body : Nat → Except String R) : List (Nat × Option R) :=
  available_uids.map (fun uid => query_miner uid (body uid))

/-- Claim C4: dispatch always yields a per-peer result and never raises: any
failure of the request body (transport error, deserialization error, deadline
expiry — all collapsed into `Except.error`) is converted into `(peer, none)`,
so a batch over `N` peers yields exactly `N` results, the `i`-th result
belongs to the `i`-th peer, and one peer's outcome never affects another
peer's result (failure isolation). -/
theorem C4_dispatch_isolation {R : Type} (available_uids : List Nat)
    (body : Nat → Except String R) :
    (start_query available_uids body).length = available_uids.length ∧
    (∀ i (h : i < available_uids.length),
      (start_query available_uids body).get
          ⟨i, by simpa [start_query] using h⟩ =
        (available_uids.get ⟨i, h⟩,
         (body (available_uids.get ⟨i, h⟩)).toOption)) ∧
    (∀ (body' : Nat → Except String R) (u : Nat),
      (∀ w, w ≠ u → body w = body' w) →
      ∀ i (h : i < available_uids.length), available_uids.get ⟨i, h⟩ ≠ u →
        (start_query available_uids body).get ⟨i, by simpa [start_query] using h⟩ =
        (start_query available_uids body').get ⟨i, by simpa [start_query] using h⟩) := by
  refine ⟨by simp [start_query], ?_, ?_⟩
  · intro i h
    simp only [start_query, List.get_map]
    cases hb : body (available_uids.get ⟨i, h⟩) <;> simp [query_miner, hb, Except.toOption]
  · intro body' u hagree i h hne
    simp only [start_query, List.get_map]
    rw [hagree _ hne]

/-- Witness for C4: a batch of three peers where the middle one times out
still yields three results, the failed peer marked `none`. -/
theorem C4_dispatch_isolation_witness :
    (start_query [3, 7, 9]
        (fun u => if u = 7 then .error "timeout" else .ok "resp")).length = 3 ∧
    (start_query [3, 7, 9]
        (fun u => if u = 7 then .error "timeout" else .ok "resp")).get ⟨1, by simp [start_query]⟩ =
      (7, none) ∧
    (start_query [3, 7, 9]
        (fun u => if u = 7 then .error "timeout" else .ok "resp")).get ⟨2, by simp [start_query]⟩ =
      (9, some "resp") := by
  obtain ⟨h1, h2, _⟩ := C4_dispatch_isolation [3, 7, 9]
    (fun u => if u = 7 then Except.error "timeout" else Except.ok "resp")
  refine ⟨h1, ?_, ?_⟩
  · have := h2 1 (by simp)
    simpa using this
  · have := h2 2 (by simp)
    simpa using this

/-! ## Scoring gates (`TextValidator.score_responses`, lines 421-455;
`EmbeddingsValidator.score_responses`, lines 501-539)

Both scorers draw `random.random()` (a value in `[0,1)`, modelled as `r : ℚ`)
and set `will_score_all` by comparing against the gate threshold (`1/8` for
text, `1/1.1` for embeddings).  The first loop collects a `call_openai` /
`call_openai_embeddings` task per response that is truthy while the gate is
open, and those tasks are awaited by the first `asyncio.gather`.  When the
gate is closed (or no response is truthy) no task is ever collected, every
subsequent loop iterates an empty sequence, and the returned score dicts are
empty.  (When at least one task was collected, the source's final
`asyncio.gather` re-awaits the already-awaited coroutines of the first
gather — a `RuntimeError` in asyncio, modelled as `Except.error`; that path
is outside this claim, which concerns the closed gate.) -/

def textGateOpen (r : ℚ) : Bool := decide (r < 1/8)

def embeddingsGateOpen (r : ℚ) : Bool := decide (r < 1/(11/10))

/-- Truthiness of a text response (a concatenated chunk string or `None`). -/
def truthyText : Option String → Bool
  | none => false
  | some s => !s.isEmpty

/-- A dendrite embeddings reply: a list of response objects, each carrying an
optional embeddings payload. -/
structure EmbResponse where
  embeddings : Option (List (List ℚ))
deriving DecidableEq

/-- Truthiness of an embeddings response (a non-empty response list). -/
def truthyEmb : Option (List EmbResponse) → Bool
  | none => false
  | some l => !l.isEmpty

def TextValidator_score_responses (will_score_all : Bool)
    (query_responses : List (Nat × Option String)) :
    Except Unit (List (Nat × ℚ)) :=
  let score_tasks :=
    (query_responses.filter (fun p => will_score_all && truthyText p.2)).map Prod.fst
  if score_tasks.isEmpty then
    -- no task gathered twice, every loop is vacuous, scores = {}
    .ok []
  else
    -- line 445 re-awaits the coroutines awaited at line 437: RuntimeError
    .error ()

def EmbeddingsValidator_score_responses (will_score_all : Bool)
    (query_responses : List (Nat × Option (List EmbResponse))) :
    Except Unit (List (Nat × ℚ)) :=
  let score_tasks :=
    (query_responses.filter (fun p => will_score_all && truthyEmb p.2)).map Prod.fst
  if score_tasks.isEmpty then
    .ok []
  else
    -- line 529 re-awaits the coroutines awaited at line 516: RuntimeError
    .error ()

/-- Modelled from the spec: the round-merge helper `get_and_score_embeddings`
called at validator.py line 563 is absent from `src/` (only its call site
exists).  Per the spec's data model, the round score vector carries one entry
per peer known this round with "default 0 for peers dispatched to but not
scored". -/
def roundScoreVector (uids : List Nat) (scores : List (Nat × ℚ)) : List ℚ :=
  uids.map (fun u => ((scores.lookup u).getD 0))

/-- Claim C6: when the Bernoulli scoring gate is closed (text threshold `1/8`,
embeddings threshold `1/1.1`), no scoring task is created for any peer,
regardless of response contents, so the returned score dict is empty and the
round's score vector over the round's peers is all-zero. -/
theorem C6_closed_gate_all_zero (r r' : ℚ)
    (query_responses_text : List (Nat × Option String))
    (query_responses_emb : List (Nat × Option (List EmbResponse)))
    (uids : List Nat)
    (hr : ¬ r < 1/8) (hr' : ¬ r' < 1/(11/10)) :
    TextValidator_score_responses (textGateOpen r) query_responses_text = .ok [] ∧
    EmbeddingsValidator_score_responses (embeddingsGateOpen r') query_responses_emb
      = .ok [] ∧
    roundScoreVector uids [] = List.replicate uids.length 0 := by
  have hg1 : textGateOpen r = false := by
    simp only [textGateOpen]
    exact decide_eq_false hr
  have hg2 : embeddingsGateOpen r' = false := by
    simp only [embeddingsGateOpen]
    exact decide_eq_false hr'
  refine ⟨?_, ?_, ?_⟩
  · simp [TextValidator_score_responses, hg1]
  · simp [EmbeddingsValidator_score_responses, hg2]
  · simp [roundScoreVector, List.map_const']

/-- Witness for C6: concrete closed-gate draws with non-trivial responses
still produce the empty dict and the zero vector. -/
theorem C6_closed_gate_all_zero_witness :
    TextValidator_score_responses (textGateOpen (1/2)) [(4, some "great answer")]
        = .ok [] ∧
    EmbeddingsValidator_score_responses (embeddingsGateOpen (95/100))
        [(4, some [⟨some [[1]]⟩])] = .ok [] ∧
    roundScoreVector [4, 5] [] = [0, 0] := by
  obtain ⟨h1, h2, h3⟩ := C6_closed_gate_all_zero (1/2) (95/100)
    [(4, some "great answer")] [(4, some [⟨some [[1]]⟩])] [4, 5]
    (by norm_num) (by norm_num)
  exact ⟨h1, h2, by simpa using h3⟩

/-! ## The round loop `query_synapse` (validator.py lines 545-591)

Cumulative state across rounds: `steps_passed`, `total_scores` (a torch
vector of length `n = len(metagraph.hotkeys)`), and the global
`moving_average_scores`.  One loop iteration with round score vector `v`:

* `total_scores += v` (line 572);
* if `steps_passed % 5 == 4` (line 577): `avg = total_scores /
  (steps_passed + 1)` (line 579), `steps_passed = 0` (line 581),
  `set_weights(avg, ...)` (line 582, which updates the moving average and
  then calls the external ledger `subtensor.set_weights`),
  `total_scores = zeros(n)` (line 583);
* `steps_passed += 1` (line 585).

The `try/except` at lines 549/588-591 logs any exception and continues the
loop.  `FailAt` marks where an uncaught exception (if any) is raised during
the iteration: `duringScoring` covers everything before line 572 (metagraph
sync, uid discovery, dispatch, scoring), `duringCommitLedger` is a raise
inside `subtensor.set_weights` at line 252 (after the moving average was
already updated and `steps_passed` already zeroed, but before `total_scores`
is reset and before the `+= 1`).  Mutations made before the raise persist,
exactly as in Python. -/

structure VState where
  steps_passed : Nat
  total_scores : List ℚ
  moving_average_scores : Option (List ℚ)
deriving DecidableEq, Repr

inductive FailAt
  | duringScoring
  | duringCommitLedger
  | noFail
deriving DecidableEq, Repr

/-- One iteration of the `query_synapse` loop.  Returns the new cumulative
state and the averaged vector handed to `set_weights` (if the commit branch
was reached). -/
def query_synapse_round (n : Nat) (s : VState) (scores : List ℚ) (fail : FailAt) :
    VState × Option (List ℚ) :=
  match fail with
  | .duringScoring => (s, none)  -- exception caught before any state mutation
  | f =>
    let total' := addVec s.total_scores scores
    if s.steps_passed % 5 = 4 then
      let avg := scaleVec (1 / ((s.steps_passed : ℚ) + 1)) total'
      let mavg' := set_weights s.moving_average_scores avg
      match f with
      | .duringCommitLedger =>
        -- ledger raise: steps already 0, mavg already updated, sum NOT reset
        (⟨0, total', some mavg'⟩, some avg)
      | _ =>
        (⟨1, zeroVec n, some mavg'⟩, some avg)
    else
      ({ s with total_scores := total', steps_passed := s.steps_passed + 1 }, none)

/-- Fault-free runs of consecutive rounds, collecting the committed vectors. -/
def runRounds (n : Nat) (s : VState) : List (List ℚ) → VState × List (List ℚ)
  | [] => (s, [])
  | v :: vs =>
    let (s', c) := query_synapse_round n s v .noFail
    let (s'', cs) := runRounds n s' vs
    (s'', c.toList ++ cs)

lemma addVec_zeroVec (n : Nat) (a : List ℚ) (h : a.length = n) :
    addVec (zeroVec n) a = a := by
  subst h
  induction a with
  | nil => rfl
  | cons x xs ih =>
    simpa [addVec, zeroVec, List.replicate_succ] using ih

/-- Claim C2 counterexample: with one peer scoring `1` every round, the first
commit (round 5) hands `[1]` to the accumulator, but the second commit (round
9) hands `[4/5]`: only rounds 6-9 — four rounds, summing to `[4]` — lie in the
second window, yet the divisor `steps_passed + 1` is again `5`.  The claim
dictates the true windowed average `[4/4] = [1]`, so the second commit
falsifies it. -/
theorem C2_counterexample :
    (runRounds 1 ⟨0, zeroVec 1, none⟩
      [[1], [1], [1], [1], [1], [1], [1], [1], [(1 : ℚ)]]).2 = [[1], [4/5]] ∧
    ([4/5] : List ℚ) ≠ [1] := by
  constructor
  · norm_num [runRounds, query_synapse_round, addVec, scaleVec, zeroVec, set_weights]
  · norm_num

/-- Claim C2 as amended: a commit fires exactly when `steps_passed % 5 == 4`,
and the committed vector is the accumulated sum divided by
`steps_passed + 1 = 5`; both the sum and the counter are reset at commit, but
the counter is incremented to `1` immediately afterwards, so the first window
contains 5 rounds (making its divisor the true round count) while every
subsequent window contains only 4 rounds yet is still divided by 5. -/
theorem C2_commit_schedule :
    (∀ (n : Nat) (s : VState) (v : List ℚ),
      (query_synapse_round n s v .noFail).2.isSome ↔ s.steps_passed % 5 = 4) ∧
    (∀ (n : Nat) (m : Option (List ℚ)) (v1 v2 v3 v4 v5 : List ℚ),
      v1.length = n →
      runRounds n ⟨0, zeroVec n, m⟩ [v1, v2, v3, v4, v5] =
        (⟨1, zeroVec n,
          some (set_weights m
            (scaleVec (1/5) (addVec (addVec (addVec (addVec v1 v2) v3) v4) v5)))⟩,
         [scaleVec (1/5) (addVec (addVec (addVec (addVec v1 v2) v3) v4) v5)])) ∧
    (∀ (n : Nat) (m : Option (List ℚ)) (a b c d : List ℚ),
      a.length = n →
      runRounds n ⟨1, zeroVec n, m⟩ [a, b, c, d] =
        (⟨1, zeroVec n,
          some (set_weights m (scaleVec (1/5) (addVec (addVec (addVec a b) c) d)))⟩,
         [scaleVec (1/5) (addVec (addVec (addVec a b) c) d)])) := by
  refine ⟨?_, ?_, ?_⟩
  · intro n s v
    by_cases h : s.steps_passed % 5 = 4 <;> simp [query_synapse_round, h]
  · intro n m v1 v2 v3 v4 v5 h1
    simp only [runRounds, query_synapse_round]
    norm_num [addVec_zeroVec n v1 h1]
  · intro n m a b c d h1
    simp only [runRounds, query_synapse_round]
    norm_num [addVec_zeroVec n a h1]

/-- Witness for C2 at concrete inputs. -/
theorem C2_commit_schedule_witness :
    ((query_synapse_round 1 ⟨4, [0], none⟩ [0] .noFail).2.isSome ↔ 4 % 5 = 4) ∧
    runRounds 1 ⟨0, zeroVec 1, none⟩ [[1], [1], [1], [1], [(1 : ℚ)]] =
      (⟨1, zeroVec 1,
        some (set_weights none
          (scaleVec (1/5) (addVec (addVec (addVec (addVec [1] [1]) [1]) [1]) [1])))⟩,
       [scaleVec (1/5) (addVec (addVec (addVec (addVec [1] [1]) [1]) [1]) [1])]) ∧
    runRounds 1 ⟨1, zeroVec 1, some [1]⟩ [[1], [1], [1], [(1 : ℚ)]] =
      (⟨1, zeroVec 1,
        some (set_weights (some [1])
          (scaleVec (1/5) (addVec (addVec (addVec [1] [1]) [1]) [1])))⟩,
       [scaleVec (1/5) (addVec (addVec (addVec [1] [1]) [1]) [1])]) :=
  ⟨C2_commit_schedule.1 1 ⟨4, [0], none⟩ [0],
   C2_commit_schedule.2.1 1 none [1] [1] [1] [1] [1] rfl,
   C2_commit_schedule.2.2 1 (some [1]) [1] [1] [1] [1] rfl⟩

/-- Claim C8 counterexample: in a commit round (`steps_passed = 4`), an
exception raised by the external ledger call `subtensor.set_weights` (line
252) — after the moving average was updated and `steps_passed` was zeroed
(line 581), but before `total_scores` is reset (line 583) — leaves the
cumulative state partially mutated, not "exactly as it was before the failed
round began". -/
theorem C8_counterexample :
    (query_synapse_round 1 ⟨4, [1], some [2]⟩ [1] .duringCommitLedger).1
      ≠ ⟨4, [1], some [2]⟩ := by
  norm_num [query_synapse_round, addVec, scaleVec, zeroVec, set_weights]

/-- Claim C8 as amended: any uncaught exception is logged and the loop
continues (the round step is total); an exception raised before the round's
merge (`total_scores += scores`, line 572) leaves the cumulative state exactly
as it was; in a non-commit round a ledger failure cannot occur (no ledger call
is made) and the round behaves as a fault-free one; but in a commit round an
exception inside the ledger call leaves a partial update — counter reset to
`0`, moving average already updated, and `total_scores` still holding the
window sum. -/
theorem C8_round_failure (n : Nat) (s : VState) (v : List ℚ) :
    (query_synapse_round n s v .duringScoring = (s, none)) ∧
    (s.steps_passed % 5 ≠ 4 →
      query_synapse_round n s v .duringCommitLedger =
        query_synapse_round n s v .noFail) ∧
    (s.steps_passed % 5 = 4 →
      (query_synapse_round n s v .duringCommitLedger).1 =
        ⟨0, addVec s.total_scores v,
         some (set_weights s.moving_average_scores
           (scaleVec (1 / ((s.steps_passed : ℚ) + 1)) (addVec s.total_scores v)))⟩) := by
  refine ⟨rfl, ?_, ?_⟩
  · intro h
    simp [query_synapse_round, h]
  · intro h
    simp [query_synapse_round, h]

/-- Witness for C8 at concrete inputs. -/
theorem C8_round_failure_witness :
    query_synapse_round 1 ⟨2, [5], some [3]⟩ [7] .duringScoring
      = (⟨2, [5], some [3]⟩, none) ∧
    query_synapse_round 1 ⟨2, [5], some [3]⟩ [7] .duringCommitLedger
      = query_synapse_round 1 ⟨2, [5], some [3]⟩ [7] .noFail ∧
    (query_synapse_round 1 ⟨4, [1], some [2]⟩ [1] .duringCommitLedger).1 =
      ⟨0, addVec [1] [1],
       some (set_weights (some [2])
         (scaleVec (1 / (((4 : Nat) : ℚ) + 1)) (addVec [1] [1])))⟩ :=
  ⟨(C8_round_failure 1 ⟨2, [5], some [3]⟩ [7]).1,
   (C8_round_failure 1 ⟨2, [5], some [3]⟩ [7]).2.1 (by decide),
   (C8_round_failure 1 ⟨4, [1], some [2]⟩ [1]).2.2 rfl⟩

/-! ## Concurrency of TaskSupply refills (validator.py lines 30, 197-213)

`update_counters_and_get_new_list` runs its whole body under the single
module-level `asyncio.Lock` (`list_update_lock`), shared by ALL categories and
kinds.  Under asyncio's cooperative scheduling, code between `await` points
runs atomically; inside the locked section the only `await` is the oracle
refill (`get_items`).  We model two concurrent `take` tasks as a two-thread
interleaving machine: each thread atomically acquires the lock and inspects
its queue (popping and releasing immediately when the queue is truthy —
there is no suspension point on that path), or, when the queue is falsy,
holds the lock across the suspended refill (phase `refilling`), which later
completes atomically (store the fetched list, pop, store `None` if drained,
release).  A thread whose `acquire` finds the lock held cannot proceed until
it is released.  Thread `i`'s queue key is `k0`/`k1` (two categories as
`Bool`), its refill result `supF`/`supT`; a schedule is the list of thread
ids picked to run next. -/

inductive LPhase
  | start
  | refilling
  | done
deriving DecidableEq, Repr

structure LockConf where
  lock : Option Bool
  qF : Option (List String)
  qT : Option (List String)
  rF : Nat
  rT : Nat
  ph0 : LPhase
  ph1 : LPhase
deriving DecidableEq, Repr

def getPhase (c : LockConf) (i : Bool) : LPhase := if i then c.ph1 else c.ph0

def setPhase (c : LockConf) (i : Bool) (p : LPhase) : LockConf :=
  if i then { c with ph1 := p } else { c with ph0 := p }

def getQk (c : LockConf) (k : Bool) : Option (List String) := if k then c.qT else c.qF

def setQk (c : LockConf) (k : Bool) (v : Option (List String)) : LockConf :=
  if k then { c with qT := v } else { c with qF := v }

def bumpRk (c : LockConf) (k : Bool) : LockConf :=
  if k then { c with rT := c.rT + 1 } else { c with rF := c.rF + 1 }

def setLock (c : LockConf) (v : Option Bool) : LockConf := { c with lock := v }

def lockStep (k0 k1 : Bool) (supF supT : List String) (c : LockConf) (i : Bool) :
    LockConf :=
  let k := if i then k1 else k0
  let sup := if k then supT else supF
  match getPhase c i with
  | .done => c
  | .refilling =>
    -- the awaited refill completes while holding the lock:
    -- `state[...] = items`, pop, `state[...] = None` if drained, release
    let q' := if sup.dropLast.isEmpty then none else some sup.dropLast
    setPhase (setLock (bumpRk (setQk c k q') k) none) i .done
  | .start =>
    if c.lock = none then
      match getQk c k with
      | some (x :: xs) =>
        -- truthy queue: no suspension inside the lock, so acquire, pop and
        -- release are one atomic event-loop step
        let rest := (x :: xs).dropLast
        setPhase (setQk c k (if rest.isEmpty then none else some rest)) i .done
      | _ =>
        -- falsy queue: acquire the lock, then suspend awaiting the refill
        setPhase (setLock c (some i)) i .refilling
    else c

/-- Run a schedule from the initial configuration: both queues empty (`None`),
no refills yet, both takes about to run. -/
def lockRun (k0 k1 : Bool) (supF supT : List String) (ms : List Bool) : LockConf :=
  ms.foldl (lockStep k0 k1 supF supT) ⟨none, none, none, 0, 0, .start, .start⟩

@[simp] lemma setQk_lock (c : LockConf) (k : Bool) (v : Option (List String)) :
    (setQk c k v).lock = c.lock := by cases k <;> rfl

@[simp] lemma setQk_ph0 (c : LockConf) (k : Bool) (v : Option (List String)) :
    (setQk c k v).ph0 = c.ph0 := by cases k <;> rfl

@[simp] lemma setQk_ph1 (c : LockConf) (k : Bool) (v : Option (List String)) :
    (setQk c k v).ph1 = c.ph1 := by cases k <;> rfl

@[simp] lemma bumpRk_lock (c : LockConf) (k : Bool) : (bumpRk c k).lock = c.lock := by
  cases k <;> rfl

@[simp] lemma bumpRk_ph0 (c : LockConf) (k : Bool) : (bumpRk c k).ph0 = c.ph0 := by
  cases k <;> rfl

@[simp] lemma bumpRk_ph1 (c : LockConf) (k : Bool) : (bumpRk c k).ph1 = c.ph1 := by
  cases k <;> rfl

@[simp] lemma setLock_lock (c : LockConf) (v : Option Bool) : (setLock c v).lock = v := rfl

@[simp] lemma setLock_ph0 (c : LockConf) (v : Option Bool) : (setLock c v).ph0 = c.ph0 := rfl

@[simp] lemma setLock_ph1 (c : LockConf) (v : Option Bool) : (setLock c v).ph1 = c.ph1 := rfl

@[simp] lemma setPhase_lock (c : LockConf) (i : Bool) (p : LPhase) :
    (setPhase c i p).lock = c.lock := by cases i <;> rfl

@[simp] lemma setPhase_false_ph0 (c : LockConf) (p : LPhase) :
    (setPhase c false p).ph0 = p := rfl

@[simp] lemma setPhase_false_ph1 (c : LockConf) (p : LPhase) :
    (setPhase c false p).ph1 = c.ph1 := rfl

@[simp] lemma setPhase_true_ph0 (c : LockConf) (p : LPhase) :
    (setPhase c true p).ph0 = c.ph0 := rfl

@[simp] lemma setPhase_true_ph1 (c : LockConf) (p : LPhase) :
    (setPhase c true p).ph1 = p := rfl

/-- A thread suspended inside a refill holds the global lock. -/
def HoldsLock (c : LockConf) : Prop :=
  (c.ph0 = .refilling → c.lock = some false) ∧ (c.ph1 = .refilling → c.lock = some true)

lemma HoldsLock_step (k0 k1 : Bool) (supF supT : List String) (c : LockConf) (i : Bool)
    (h : HoldsLock c) : HoldsLock (lockStep k0 k1 supF supT c i) := by
  obtain ⟨h0, h1⟩ := h
  cases i with
  | false =>
    cases hp : c.ph0 with
    | done =>
      simpa [lockStep, getPhase, hp] using ⟨h0, h1⟩
    | refilling =>
      constructor
      · intro hcon
        simp [lockStep, getPhase, hp] at hcon
      · intro hcon
        simp only [lockStep, getPhase] at hcon
        simp only [hp] at hcon
        simp at hcon
        have := h1 hcon
        rw [h0 hp] at this
        exact absurd this (by simp)
    | start =>
      by_cases hl : c.lock = none
      · cases hq : getQk c k0 with
        | some l =>
          cases l with
          | nil =>
            constructor
            · intro _
              simp [lockStep, getPhase, hp, hl, hq]
            · intro hcon
              simp [lockStep, getPhase, hp, hl, hq] at hcon
              rw [h1 hcon] at hl
              exact absurd hl (by simp)
          | cons x xs =>
            constructor
            · intro hcon
              simp [lockStep, getPhase, hp, hl, hq] at hcon
            · intro hcon
              simp [lockStep, getPhase, hp, hl, hq] at hcon
              rw [h1 hcon] at hl
              exact absurd hl (by simp)
        | none =>
          constructor
          · intro _
            simp [lockStep, getPhase, hp, hl, hq]
          · intro hcon
            simp [lockStep, getPhase, hp, hl, hq] at hcon
            rw [h1 hcon] at hl
            exact absurd hl (by simp)
      · simpa [lockStep, getPhase, hp, hl] using ⟨h0, h1⟩
  | true =>
    cases hp : c.ph1 with
    | done =>
      simpa [lockStep, getPhase, hp] using ⟨h0, h1⟩
    | refilling =>
      constructor
      · intro hcon
        simp only [lockStep, getPhase] at hcon
        simp only [hp] at hcon
        simp at hcon
        have := h0 hcon
        rw [h1 hp] at this
        exact absurd this (by simp)
      · intro hcon
        simp [lockStep, getPhase, hp] at hcon
    | start =>
      by_cases hl : c.lock = none
      · cases hq : getQk c k1 with
        | some l =>
          cases l with
          | nil =>
            constructor
            · intro hcon
              simp [lockStep, getPhase, hp, hl, hq] at hcon
              rw [h0 hcon] at hl
              exact absurd hl (by simp)
            · intro _
              simp [lockStep, getPhase, hp, hl, hq]
          | cons x xs =>
            constructor
            · intro hcon
              simp [lockStep, getPhase, hp, hl, hq] at hcon
              rw [h0 hcon] at hl
              exact absurd hl (by simp)
            · intro hcon
              simp [lockStep, getPhase, hp, hl, hq] at hcon
        | none =>
          constructor
          · intro hcon
            simp [lockStep, getPhase, hp, hl, hq] at hcon
            rw [h0 hcon] at hl
            exact absurd hl (by simp)
          · intro _
            simp [lockStep, getPhase, hp, hl, hq]
      · simpa [lockStep, getPhase, hp, hl] using ⟨h0, h1⟩

lemma foldl_preserve {P : LockConf → Prop} (f : LockConf → Bool → LockConf)
    (hf : ∀ c i, P c → P (f c i)) :
    ∀ (ms : List Bool) (c : LockConf), P c → P (ms.foldl f c) := by
  intro ms
  induction ms with
  | nil => intro c h; exact h
  | cons m ms ih => intro c h; exact ih (f c m) (hf c m h)

lemma HoldsLock_lockRun (k0 k1 : Bool) (supF supT : List String) (ms : List Bool) :
    HoldsLock (lockRun k0 k1 supF supT ms) :=
  foldl_preserve _ (HoldsLock_step k0 k1 supF supT) ms _
    ⟨fun h => by simp at h, fun h => by simp at h⟩

@[simp] lemma setQk_rF (c : LockConf) (k : Bool) (v : Option (List String)) :
    (setQk c k v).rF = c.rF := by cases k <;> rfl

@[simp] lemma setPhase_rF (c : LockConf) (i : Bool) (p : LPhase) :
    (setPhase c i p).rF = c.rF := by cases i <;> rfl

@[simp] lemma setLock_rF (c : LockConf) (v : Option Bool) : (setLock c v).rF = c.rF := rfl

@[simp] lemma bumpRk_false_rF (c : LockConf) : (bumpRk c false).rF = c.rF + 1 := rfl

lemma dropLast_not_empty (sup : List String) (h : 2 ≤ sup.length) :
    sup.dropLast.isEmpty = false := by
  have hl : sup.dropLast.length = sup.length - 1 := List.length_dropLast sup
  cases hd : sup.dropLast with
  | nil => rw [hd] at hl; simp at hl; omega
  | cons a as => rfl

/-- Reachable-configuration invariant for two takes of the SAME key (both
`false`) starting from empty queues: the lock forces the two takes into a
strict sequence, and — when the refill yields at least two items — the second
take finds a non-empty queue, so exactly one refill ever runs. -/
def SInv (sup : List String) (c : LockConf) : Prop :=
  c = ⟨none, none, none, 0, 0, .start, .start⟩ ∨
  c = ⟨some false, none, none, 0, 0, .refilling, .start⟩ ∨
  c = ⟨some true, none, none, 0, 0, .start, .refilling⟩ ∨
  c = ⟨none, some sup.dropLast, none, 1, 0, .done, .start⟩ ∨
  c = ⟨none, some sup.dropLast, none, 1, 0, .start, .done⟩ ∨
  (c.ph0 = .done ∧ c.ph1 = .done ∧ c.rF = 1)

lemma SInv_step (supF supT : List String) (hlen : 2 ≤ supF.length)
    (c : LockConf) (i : Bool) (h : SInv supF c) :
    SInv supF (lockStep false false supF supT c i) := by
  have hne : supF.dropLast.isEmpty = false := dropLast_not_empty supF hlen
  obtain ⟨x, xs, hxs⟩ : ∃ x xs, supF.dropLast = x :: xs := by
    cases hd : supF.dropLast with
    | nil => rw [hd] at hne; simp at hne
    | cons a as => exact ⟨a, as, rfl⟩
  rcases h with h | h | h | h | h | h
  · subst h
    cases i with
    | false =>
      refine Or.inr (Or.inl ?_)
      simp [lockStep, getPhase, getQk, setPhase, setLock]
    | true =>
      refine Or.inr (Or.inr (Or.inl ?_))
      simp [lockStep, getPhase, getQk, setPhase, setLock]
  · subst h
    cases i with
    | false =>
      refine Or.inr (Or.inr (Or.inr (Or.inl ?_)))
      simp [lockStep, getPhase, getQk, setQk, setPhase, setLock, bumpRk, hne]
    | true =>
      refine Or.inr (Or.inl ?_)
      simp [lockStep, getPhase]
  · subst h
    cases i with
    | false =>
      refine Or.inr (Or.inr (Or.inl ?_))
      simp [lockStep, getPhase]
    | true =>
      refine Or.inr (Or.inr (Or.inr (Or.inr (Or.inl ?_))))
      simp [lockStep, getPhase, getQk, setQk, setPhase, setLock, bumpRk, hne]
  · subst h
    cases i with
    | false =>
      refine Or.inr (Or.inr (Or.inr (Or.inl ?_)))
      simp [lockStep, getPhase]
    | true =>
      refine Or.inr (Or.inr (Or.inr (Or.inr (Or.inr ?_))))
      rw [lockStep]
      simp only [getPhase, getQk, hxs]
      simp [setPhase, setQk]
  · subst h
    cases i with
    | false =>
      refine Or.inr (Or.inr (Or.inr (Or.inr (Or.inr ?_))))
      rw [lockStep]
      simp only [getPhase, getQk, hxs]
      simp [setPhase, setQk]
    | true =>
      refine Or.inr (Or.inr (Or.inr (Or.inr (Or.inl ?_))))
      simp [lockStep, getPhase]
  · obtain ⟨hd0, hd1, hr⟩ := h
    refine Or.inr (Or.inr (Or.inr (Or.inr (Or.inr ?_))))
    cases i with
    | false =>
      have hstep : lockStep false false supF supT c false = c := by
        simp [lockStep, getPhase, hd0]
      rw [hstep]
      exact ⟨hd0, hd1, hr⟩
    | true =>
      have hstep : lockStep false false supF supT c true = c := by
        simp [lockStep, getPhase, hd1]
      rw [hstep]
      exact ⟨hd0, hd1, hr⟩

lemma SInv_lockRun (supF supT : List String) (hlen : 2 ≤ supF.length)
    (ms : List Bool) : SInv supF (lockRun false false supF supT ms) :=
  foldl_preserve _ (fun c i h => SInv_step supF supT hlen c i h) ms _ (Or.inl rfl)

/-- Claim C5 counterexample: two concurrent takes on the same empty key whose
refill yields a single item perform TWO refill invocations, not one: the
first take refills, pops the only item and stores the `None` sentinel, so the
second take finds the queue empty again and refills a second time. -/
theorem C5_counterexample :
    (lockRun false false ["a"] [] [false, false, true, true]).ph0 = .done ∧
    (lockRun false false ["a"] [] [false, false, true, true]).ph1 = .done ∧
    (lockRun false false ["a"] [] [false, false, true, true]).rF = 2 := by
  refine ⟨rfl, rfl, rfl⟩

/-- Claim C5 as amended: refills are serialized by the single module-level
lock shared by ALL categories: in every schedule, at no point are two refills
running concurrently — including refills of two different categories, which
therefore can NOT run concurrently; and two concurrent takes on the same
empty key perform exactly one refill provided the refill yields at least two
items (a single-item refill is drained by the first take, making the second
take refill again — see the counterexample). -/
theorem C5_refill_mutual_exclusion :
    (∀ (k0 k1 : Bool) (supF supT : List String) (ms : List Bool),
      ¬((lockRun k0 k1 supF supT ms).ph0 = .refilling ∧
        (lockRun k0 k1 supF supT ms).ph1 = .refilling)) ∧
    (∀ (supF supT : List String) (ms : List Bool), 2 ≤ supF.length →
      (lockRun false false supF supT ms).ph0 = .done →
      (lockRun false false supF supT ms).ph1 = .done →
      (lockRun false false supF supT ms).rF = 1) := by
  constructor
  · rintro k0 k1 supF supT ms ⟨hc0, hc1⟩
    have h := HoldsLock_lockRun k0 k1 supF supT ms
    have hf := h.1 hc0
    rw [h.2 hc1] at hf
    simp at hf
  · intro supF supT ms hlen hd0 hd1
    rcases SInv_lockRun supF supT hlen ms with h | h | h | h | h | h
    · rw [h] at hd0; exact absurd hd0 (by simp)
    · rw [h] at hd0; exact absurd hd0 (by simp)
    · rw [h] at hd0; exact absurd hd0 (by simp)
    · rw [h] at hd1; exact absurd hd1 (by simp)
    · rw [h] at hd0; exact absurd hd0 (by simp)
    · exact h.2.2

/-- Witness for C5: a concrete different-category schedule with no concurrent
refills, and a concrete same-key schedule with an adequate (two-item) refill
performing exactly one refill. -/
theorem C5_refill_mutual_exclusion_witness :
    (¬(((lockRun false true ["a", "b"] ["c", "d"] [false, true, false, true]).ph0
          = .refilling) ∧
       ((lockRun false true ["a", "b"] ["c", "d"] [false, true, false, true]).ph1
          = .refilling))) ∧
    (lockRun false false ["a", "b"] [] [false, false, true, true]).rF = 1 :=
  ⟨C5_refill_mutual_exclusion.1 false true ["a", "b"] ["c", "d"]
      [false, true, false, true],
   C5_refill_mutual_exclusion.2 ["a", "b"] [] [false, false, true, true]
      (by norm_num) rfl rfl⟩
